import Mathlib

/-!
Verification development for the relation_engine repository.

Embedded components:
* `relation_engine_server/utils/bulk_import.py`: `bulk_import` and
  `_write_edge_key` (deterministic edge keys via an 8-byte BLAKE2b digest,
  per-line schema validation, `updated_at` stamping, temp-file lifecycle).
* `importers/data_sources/importer.py`: `Importer.load_data` (accumulate
  validation errors, save only when everything validates).
* The manifest-driven DJORNL parser (its implementation is not part of the
  provided sources, only its test suite is; the corresponding definitions
  below are modelled from the specification and are marked as such).

Machine integers are modelled as `Nat` with explicit reduction `% 2^64`
where 64-bit overflow matters.
-/

/-! ## 64-bit arithmetic over Nat -/

/-- 2^64, the modulus for 64-bit words. -/
def MOD64 : Nat := 18446744073709551616

/-- 64-bit addition: add and reduce mod 2^64. -/
def add64 (a b : Nat) : Nat := (a + b) % MOD64

/-- 64-bit rotate right by `n` (for `x < 2^64`, `0 < n < 64`). -/
def ror64 (x n : Nat) : Nat := (x >>> n) ||| ((x <<< (64 - n)) % MOD64)

/-! ## BLAKE2b (RFC 7693), unkeyed, parameterised by digest length

`hashlib.blake2b(data, digest_size=nn)` with no key.  Words are `Nat`
reduced mod 2^64; bytes are `Nat < 256`. -/

/-- BLAKE2b initialisation vector (the SHA-512 IV words). -/
def blakeIV : List Nat :=
  [0x6a09e667f3bcc908, 0xbb67ae8584caa73b, 0x3c6ef372fe94f82b,
   0xa54ff53a5f1d36f1, 0x510e527fade682d1, 0x9b05688c2b3e6c1f,
   0x1f83d9abfb41bd6b, 0x5be0cd19137e2179]

/-- The ten BLAKE2 message schedule permutations. -/
def blakeSchedule : List (List Nat) :=
  [[0, 1, 2, 3, 4, 5, 6, 7, 8, 9, 10, 11, 12, 13, 14, 15],
   [14, 10, 4, 8, 9, 15, 13, 6, 1, 12, 0, 2, 11, 7, 5, 3],
   [11, 8, 12, 0, 5, 2, 15, 13, 10, 14, 3, 6, 7, 1, 9, 4],
   [7, 9, 3, 1, 13, 12, 11, 14, 2, 6, 5, 10, 4, 0, 15, 8],
   [9, 0, 5, 7, 2, 4, 10, 15, 14, 1, 11, 12, 6, 8, 3, 13],
   [2, 12, 6, 10, 0, 11, 8, 3, 4, 13, 7, 5, 15, 14, 1, 9],
   [12, 5, 1, 15, 14, 13, 4, 10, 0, 7, 6, 3, 9, 2, 8, 11],
   [13, 11, 7, 14, 12, 1, 3, 9, 5, 0, 15, 4, 8, 6, 2, 10],
   [6, 15, 14, 9, 11, 3, 0, 8, 12, 2, 13, 7, 1, 4, 10, 5],
   [10, 2, 8, 4, 7, 6, 1, 5, 15, 11, 9, 14, 3, 12, 13, 0]]

/-- Read entry `i` of a word vector (0 for out-of-range, never hit on the
vectors BLAKE2b builds). -/
def vget (v : List Nat) (i : Nat) : Nat := v.getD i 0

/-- The BLAKE2b G mixing function on the 16-word work vector. -/
def gMix (v : List Nat) (a b c d x y : Nat) : List Nat :=
  let va := add64 (add64 (vget v a) (vget v b)) x
  let vd := ror64 (Nat.xor (vget v d) va) 32
  let vc := add64 (vget v c) vd
  let vb := ror64 (Nat.xor (vget v b) vc) 24
  let va := add64 (add64 va vb) y
  let vd := ror64 (Nat.xor vd va) 16
  let vc := add64 vc vd
  let vb := ror64 (Nat.xor vb vc) 63
  ((((v.set a va).set b vb).set c vc).set d vd)

/-- One BLAKE2b round: eight G applications under schedule row `i % 10`. -/
def blakeRound (m : List Nat) (v : List Nat) (i : Nat) : List Nat :=
  let s := blakeSchedule.getD (i % 10) []
  let mi := fun (j : Nat) => m.getD (s.getD j 0) 0
  let v := gMix v 0 4 8 12 (mi 0) (mi 1)
  let v := gMix v 1 5 9 13 (mi 2) (mi 3)
  let v := gMix v 2 6 10 14 (mi 4) (mi 5)
  let v := gMix v 3 7 11 15 (mi 6) (mi 7)
  let v := gMix v 0 5 10 15 (mi 8) (mi 9)
  let v := gMix v 1 6 11 12 (mi 10) (mi 11)
  let v := gMix v 2 7 8 13 (mi 12) (mi 13)
  gMix v 3 4 9 14 (mi 14) (mi 15)

/-- The BLAKE2b compression function F: state `h` (8 words), message block
`m` (16 words), byte counter `t`, finalisation flag `last`. -/
def blakeCompress (h m : List Nat) (t : Nat) (last : Bool) : List Nat :=
  let v := h ++ blakeIV
  let v := v.set 12 (Nat.xor (vget v 12) (t % MOD64))
  let v := v.set 13 (Nat.xor (vget v 13) ((t >>> 64) % MOD64))
  let v := if last then v.set 14 (Nat.xor (vget v 14) (MOD64 - 1)) else v
  let v := (List.range 12).foldl (blakeRound m) v
  (List.range 8).map fun i => Nat.xor (vget h i) (Nat.xor (vget v i) (vget v (i + 8)))

/-- Little-endian byte list to word: first byte is least significant. -/
def leWord (bs : List Nat) : Nat := bs.foldr (fun b acc => b + 256 * acc) 0

/-- A (≤128-byte) block, zero-padded, as 16 little-endian 64-bit words. -/
def blockWords (block : List Nat) : List Nat :=
  let padded := block ++ List.replicate (128 - block.length) 0
  (List.range 16).map fun i => leWord ((padded.drop (8 * i)).take 8)

/-- Split a byte list into 128-byte blocks (fuel-driven; call with
`fuel = l.length` so it never runs out). -/
def toBlocks : Nat → List Nat → List (List Nat)
  | _, [] => []
  | 0, _ => []
  | fuel + 1, l => l.take 128 :: toBlocks fuel (l.drop 128)

/-- Sequentially compress the blocks of a message of `total` bytes,
having already compressed `done` bytes.  The last block is compressed
with the finalisation flag and counter `total`. -/
def compressBlocks (h : List Nat) : List (List Nat) → Nat → Nat → List Nat
  | [], _, _ => h
  | [b], _, total => blakeCompress h (blockWords b) total true
  | b :: b2 :: rest, done, total =>
      compressBlocks (blakeCompress h (blockWords b) (done + 128) false)
        (b2 :: rest) (done + 128) total

/-- The 8 little-endian bytes of a 64-bit word. -/
def wordBytes (w : Nat) : List Nat :=
  (List.range 8).map fun i => (w >>> (8 * i)) % 256

/-- BLAKE2b digest of `msg` (a byte list) with digest length `nn` bytes,
no key: `hashlib.blake2b(msg, digest_size=nn).digest()`. -/
def blake2b (nn : Nat) (msg : List Nat) : List Nat :=
  let h := blakeIV.set 0 (Nat.xor (vget blakeIV 0) (Nat.xor 0x01010000 nn))
  let blocks := if msg.isEmpty then [[]] else toBlocks msg.length msg
  let h := compressBlocks h blocks 0 msg.length
  ((h.map wordBytes).foldr (· ++ ·) []).take nn

/-! ## Hex encoding and UTF-8 (`str.encode()` / `.hexdigest()`) -/

/-- Lower-case hex digit for `n < 16`. -/
def hexChar (n : Nat) : Char :=
  ("0123456789abcdef".toList).getD n '0'

/-- Two-character lower-case hex rendering of a byte. -/
def byteHex (b : Nat) : String :=
  String.mk [hexChar (b / 16), hexChar (b % 16)]

/-- Lower-case hex string of a byte list (`bytes.hex()` / `.hexdigest()`). -/
def bytesHex (bs : List Nat) : String := String.join (bs.map byteHex)

/-- UTF-8 encoding of a single character (code point → byte list). -/
def charUTF8 (c : Char) : List Nat :=
  let n := c.toNat
  if n < 0x80 then [n]
  else if n < 0x800 then [0xc0 + n / 64, 0x80 + n % 64]
  else if n < 0x10000 then
    [0xe0 + n / 4096, 0x80 + n / 64 % 64, 0x80 + n % 64]
  else
    [0xf0 + n / 262144, 0x80 + n / 4096 % 64, 0x80 + n / 64 % 64, 0x80 + n % 64]

/-- UTF-8 bytes of a string: python's `s.encode()`. -/
def strBytes (s : String) : List Nat :=
  (s.toList.map charUTF8).foldr (· ++ ·) []

/-- `hashlib.blake2b(a, digest_size=8).hexdigest()` for byte input `a`. -/
def blake2bHex8 (msg : List Nat) : String := bytesHex (blake2b 8 msg)

/-! ## JSON documents (the fragment of JSON these functions touch)

Python dicts are modelled as association lists with first-occurrence
lookup; a dict produced by `json.loads` has distinct keys, and every
operation below is consistent with that reading. -/

/-- JSON scalar values (the document fields the embedded code reads or
writes are strings and integers; the other JSON shapes play no role in
the embedded functions and are represented by `other`). -/
inductive JVal where
  | str (s : String)
  | int (n : Int)
  | bool (b : Bool)
  | null
  | other
deriving DecidableEq

/-- A JSON object: ordered key/value pairs (python dict). -/
abbrev Doc := List (String × JVal)

/-- Python exceptions surfaced by the embedded code paths. -/
inductive PyErr where
  /-- `json.loads` failure on a request line. -/
  | valueErr
  /-- `jsonschema` `validator.validate` raised on a document. -/
  | schemaErr
  /-- `.encode()` on a non-string `_from`/`_to` (AttributeError). -/
  | typeErr
  /-- dict lookup of a missing key (KeyError). -/
  | keyErr
  /-- the database bulk loader (`import_from_file`) failed. -/
  | dbErr (msg : String)
deriving DecidableEq

/-- First-occurrence lookup: python `d[k]` as an `Option`. -/
def jGet : Doc → String → Option JVal
  | [], _ => none
  | (k', v) :: rest, k => if k' == k then some v else jGet rest k

/-- Key membership: python `k in d`. -/
def jHas (d : Doc) (k : String) : Bool := (jGet d k).isSome

/-- Python dict assignment `d[k] = v`: replace the value in place when
the key is present, otherwise append the new pair at the end. -/
def jSet : Doc → String → JVal → Doc
  | [], k, v => [(k, v)]
  | (k', v') :: rest, k, v =>
      if k' == k then (k, v) :: rest else (k', v') :: jSet rest k v

/-! ## `_write_edge_key` (bulk_import.py lines 43-49)

    def _write_edge_key(json_line):
        if "_key" not in json_line and "_from" in json_line and "_to" in json_line:
            json_line["_key"] = hashlib.blake2b(
                json_line["_from"].encode() + json_line["_to"].encode(), digest_size=8
            ).hexdigest()
        return json_line
-/

/-- `_write_edge_key`.  A non-string `_from`/`_to` makes python's
`.encode()` raise, modelled as `.error .typeErr`; the `(none, _)`
fallthrough is unreachable because the guard established membership. -/
def _write_edge_key (json_line : Doc) : Except PyErr Doc :=
  if !jHas json_line "_key" && jHas json_line "_from" && jHas json_line "_to" then
    match jGet json_line "_from", jGet json_line "_to" with
    | some (JVal.str f), some (JVal.str t) =>
        .ok (jSet json_line "_key" (JVal.str (blake2bHex8 (strBytes f ++ strBytes t))))
    | _, _ => .error PyErr.typeErr
  else
    .ok json_line

/-! ## `bulk_import` (bulk_import.py lines 13-40)

The request stream, the schema validator and the arango client are the
collaborators at the boundary of this function; each request line is
therefore modelled by its observable outcome (`json.loads` raises /
`validator.validate` raises / a parsed, schema-valid document), and the
bulk loader by a function from the written documents to its outcome. -/

/-- One line of the request stream, by collaborator outcome. -/
inductive LineInput where
  | badJson
  | badSchema (d : Doc)
  | good (d : Doc)

/-- Python `int(q)`: truncation toward zero. -/
def pyInt (q : ℚ) : Int := q.num.tdiv (q.den : Int)

/-- Per-line body of the `bulk_import` loop at clock reading `now`
(seconds): parse, validate, `_write_edge_key`, stamp
`updated_at = int(time.time() * 1000)`. -/
def processLine (now : ℚ) : LineInput → Except PyErr Doc
  | LineInput.badJson => .error PyErr.valueErr
  | LineInput.badSchema _ => .error PyErr.schemaErr
  | LineInput.good d =>
    match _write_edge_key d with
    | .error e => .error e
    | .ok d' => .ok (jSet d' "updated_at" (JVal.int (pyInt (now * 1000))))

/-- The streaming loop: documents written to the temp file so far, plus
the first exception if one was raised.  `clock i` is the value of
`time.time()` while line `i` is processed; the loop stops at the first
failing line. -/
def streamToTemp (clock : Nat → ℚ) : Nat → List LineInput → List Doc × Option PyErr
  | _, [] => ([], none)
  | i, li :: rest =>
    match processLine (clock i) li with
    | .error e => ([], some e)
    | .ok d =>
      let r := streamToTemp clock (i + 1) rest
      (d :: r.1, r.2)

/-- The observable state of the temporary file created by
`tempfile.NamedTemporaryFile(delete=False)`. -/
structure TempFS where
  tempExists : Bool
  content : List Doc

/-- `bulk_import(query_params)`: stream lines into the temp file inside
`try:`, hand the file to the bulk loader `db`, and in `finally:` remove
the temp file, whether the body finished or raised.  Returns the python
result (normal return or propagated exception) and the final temp-file
state. -/
def bulk_import (clock : Nat → ℚ) (lines : List LineInput)
    (db : List Doc → Except String String) : Except PyErr String × TempFS :=
  let fs0 : TempFS := { tempExists := true, content := [] }
  let scanned := streamToTemp clock 0 lines
  let fs1 : TempFS := { fs0 with content := scanned.1 }
  let body : Except PyErr String :=
    match scanned.2 with
    | some e => .error e
    | none =>
      match db scanned.1 with
      | .error m => .error (PyErr.dbErr m)
      | .ok r => .ok r
  (body, { fs1 with tempExists := false })

/-! ## `Importer.load_data` (importers/data_sources/importer.py)

The jsonschema validator is a collaborator; it is modelled by the
function `errs` giving each document's validation errors, with
`is_valid d = (errs d).isEmpty`.  The model starts after the data file
has been read and parsed into the list `docs` (an `OSError` while
reading returns `False` earlier and never reaches this loop). -/

/-- The validation loop of `load_data`: returns
`(is_error, data_sources_to_save, docs examined by the validator,
accumulated validation-error notes)`, or the `KeyError` raised by
`data_source['ns']` on a schema-valid document lacking `ns`. -/
def dsProcess (errs : Doc → List String) :
    List Doc → Except PyErr (Bool × List Doc × List Doc × List String)
  | [] => .ok (false, [], [], [])
  | d :: rest =>
    if (errs d).isEmpty then
      match jGet d "ns" with
      | none => .error PyErr.keyErr
      | some v =>
        match dsProcess errs rest with
        | .error e => .error e
        | .ok (isErr, toSave, seen, notes) =>
            .ok (isErr, jSet d "_key" v :: toSave, d :: seen, notes)
    else
      match dsProcess errs rest with
      | .error e => .error e
      | .ok (_, toSave, seen, notes) =>
          .ok (true, toSave, d :: seen, errs d ++ notes)

/-- Observable outcome of one `load_data` call. -/
structure LoadDataRun where
  /-- The returned boolean, or the propagated exception. -/
  result : Except PyErr Bool
  /-- The documents handed to `save_docs`, or `none` if it was not called. -/
  saved : Option (List Doc)
  /-- The documents examined by the validator, in order. -/
  validated : List Doc
  /-- All accumulated validation-error messages. -/
  errorNotes : List String

/-- `load_data(dry_run)`: validate every document, accumulate all
errors; on any error return `False` without saving; otherwise save
(unless `dry_run`) and return `True`.  (On a raised `KeyError` nothing
is returned or saved.) -/
def load_data (docs : List Doc) (errs : Doc → List String) (dry_run : Bool) :
    LoadDataRun :=
  match dsProcess errs docs with
  | .error e =>
      { result := .error e, saved := none, validated := [], errorNotes := [] }
  | .ok (isErr, toSave, seen, notes) =>
      if isErr then
        { result := .ok false, saved := none, validated := seen, errorNotes := notes }
      else if dry_run then
        { result := .ok true, saved := none, validated := seen, errorNotes := notes }
      else
        { result := .ok true, saved := some toSave, validated := seen, errorNotes := notes }

/-! ## The manifest-driven network data parser (DJORNL)

Modelled from the spec: the parser implementation (`DJORNL_Parser`) is
not among the provided sources — only its test suite is — so the
definitions in this section follow spec sections 4.1-4.6 (manifest
loading, structural row validation, type vocabulary checking and the
three `load_*` shapes), with behaviour pinned by the test suite's
asserted messages.  Conventions the spec leaves open and this model
fixes: line 1 of every file is a header row, counted in line numbering
but not a data row; an edge/cluster row's endpoint identifiers are its
first columns. -/

/-- Logical role of a manifest file descriptor. -/
inductive Role where
  | edges
  | nodeMetadata
  | cluster
deriving DecidableEq

/-- Modelled from the spec: a manifest file descriptor
`{path, role, expected_columns, type_column_index?, vocabulary?}`. -/
structure FileDesc where
  path : String
  role : Role
  expectedCols : Nat
  typeCol : Option Nat
  vocab : List String
deriving DecidableEq

/-- Modelled from the spec: the validated manifest, an ordered
collection of file descriptors. -/
structure Manifest where
  files : List FileDesc
deriving DecidableEq

/-- Column delimiter per role: tab for edge/network files, comma for
metadata files. -/
def delimFor : Role → Char
  | Role.edges => '\t'
  | Role.nodeMetadata => ','
  | Role.cluster => '\t'

/-- Split a character list on a delimiter (python `str.split(delim)`:
no trimming, empty fields preserved, the empty string is one empty
field). -/
def splitChars (delim : Char) : List Char → List (List Char)
  | [] => [[]]
  | c :: rest =>
    let r := splitChars delim rest
    if c == delim then [] :: r
    else (c :: r.headD []) :: r.tail

/-- The columns of one raw line under a delimiter. -/
def splitCols (delim : Char) (line : String) : List String :=
  (splitChars delim line.toList).map fun cs => String.mk cs

/-- The word used in type-vocabulary error messages: `edge` for
edge-role files, `node` for node-role files. -/
def typeWord : Role → String
  | Role.edges => "edge"
  | _ => "node"

/-- The column-count `FormatError` message:
`<filename> line <n>: expected <expected> cols, found <found>`. -/
def colCountMsg (d : FileDesc) (n found : Nat) : String :=
  d.path ++ " line " ++ toString n ++ ": expected " ++
    toString d.expectedCols ++ " cols, found " ++ toString found

/-- The type-vocabulary `FormatError` message:
`<filename> line <n>: invalid <edge|node> type: <value>`. -/
def badTypeMsg (d : FileDesc) (n : Nat) (v : String) : String :=
  d.path ++ " line " ++ toString n ++ ": invalid " ++
    typeWord d.role ++ " type: " ++ v

/-- Modelled from the spec (4.2, 4.3): check one data row at 1-indexed
line `n` of file `fname` — split on the role's delimiter, enforce the
expected column count, then (when the descriptor designates a type
column) enforce membership in the closed vocabulary. -/
def checkRow (d : FileDesc) (n : Nat) (line : String) :
    Except String (Nat × List String) :=
  let cols := splitCols (delimFor d.role) line
  if cols.length ≠ d.expectedCols then
    .error (colCountMsg d n cols.length)
  else
    match d.typeCol with
    | none => .ok (n, cols)
    | some i =>
      let v := cols.getD i ""
      if d.vocab.contains v then .ok (n, cols)
      else .error (badTypeMsg d n v)

/-- Modelled from the spec (4.2): scan data rows starting at line
number `n`, fail-fast — the first violation is returned and no later
row is examined. -/
def scanRows (d : FileDesc) : Nat → List String → Except String (List (Nat × List String))
  | _, [] => .ok []
  | n, line :: rest =>
    match checkRow d n line with
    | .error e => .error e
    | .ok row =>
      match scanRows d (n + 1) rest with
      | .error e => .error e
      | .ok rows => .ok (row :: rows)

/-- Modelled from the spec: scan one file — line 1 is the header
(counted, skipped), data rows start at line 2.  A file with zero data
rows yields the empty sequence. -/
def scanFile (d : FileDesc) (lines : List String) :
    Except String (List (Nat × List String)) :=
  scanRows d 2 (lines.drop 1)

/-- Modelled from the spec: scan every descriptor's file in manifest
order, fail-fast across files — a violation in one file stops the call
before any later file is touched.  `fsys` maps a path to the lines of
the file at that path. -/
def scanAll (fsys : String → List String) :
    List FileDesc → Except String (List (FileDesc × List (Nat × List String)))
  | [] => .ok []
  | d :: rest =>
    match scanFile d (fsys d.path) with
    | .error e => .error e
    | .ok rows =>
      match scanAll fsys rest with
      | .error e => .error e
      | .ok out => .ok ((d, rows) :: out)

/-- The descriptors of a given role, in manifest order. -/
def descsOf (m : Manifest) (r : Role) : List FileDesc :=
  m.files.filter (fun d => d.role == r)

/-- Row scan underlying a `load_*` call: all rows of all files of the
call's role, fail-fast. -/
def loadRows (m : Manifest) (r : Role) (fsys : String → List String) :
    Except String (List (FileDesc × List (Nat × List String))) :=
  scanAll fsys (descsOf m r)

/-- Modelled from the spec (3): an edge record. -/
structure EdgeRec where
  key : String
  fromId : String
  toId : String
  etype : String
deriving DecidableEq

/-- Modelled from the spec (3): a node record (stub or typed). -/
structure NodeRec where
  key : String
  ntype : String
deriving DecidableEq

/-- Modelled from the spec (4.4): the edge built from one valid row —
endpoints from the first two columns, type from the descriptor's type
column, `_key` the deterministic 8-byte digest of the concatenated
endpoint identifiers (the bulk-import contract). -/
def edgeOfRow (d : FileDesc) (cols : List String) : EdgeRec :=
  let f := cols.getD 0 ""
  let t := cols.getD 1 ""
  { key := blake2bHex8 (strBytes f ++ strBytes t), fromId := f, toId := t,
    etype := cols.getD (d.typeCol.getD 2) "" }

/-- Modelled from the spec (4.5): the node built from one valid
node-metadata row — key from the first column, type from the
descriptor's type column. -/
def nodeOfRow (d : FileDesc) (cols : List String) : NodeRec :=
  { key := cols.getD 0 "", ntype := cols.getD (d.typeCol.getD 1) "" }

/-- Modelled from the spec (4.6): the cluster-annotated node built from
one valid cluster row — node key from the first column, cluster id
from the second, attached as the node's only attribute. -/
def clusterNodeOfRow (cols : List String) : NodeRec :=
  { key := cols.getD 0 "", ntype := cols.getD 1 "" }

/-- The shape `load_edges` returns: `{"nodes": [...], "edges": [...]}`. -/
structure EdgeLoad where
  nodes : List NodeRec
  edges : List EdgeRec
deriving DecidableEq

/-- The shape `load_node_metadata` / `load_cluster_data` return:
`{"nodes": [...]}`. -/
structure NodeLoad where
  nodes : List NodeRec
deriving DecidableEq

/-- Modelled from the spec (4.4): the minimal node stubs for the
distinct endpoints of an edge list, deduplicated within the call. -/
def stubNodes (es : List EdgeRec) : List NodeRec :=
  ((es.flatMap fun e => [e.fromId, e.toId]).dedup).map fun k =>
    { key := k, ntype := "" }

/-- All edges of the scanned per-file rows, in file then row order. -/
def edgesOfPerFile (perFile : List (FileDesc × List (Nat × List String))) :
    List EdgeRec :=
  perFile.flatMap fun p => p.2.map fun row => edgeOfRow p.1 row.2

/-- All metadata nodes of the scanned per-file rows. -/
def nodesOfPerFile (perFile : List (FileDesc × List (Nat × List String))) :
    List NodeRec :=
  perFile.flatMap fun p => p.2.map fun row => nodeOfRow p.1 row.2

/-- All cluster-annotated nodes of the scanned per-file rows. -/
def clusterNodesOfPerFile (perFile : List (FileDesc × List (Nat × List String))) :
    List NodeRec :=
  perFile.flatMap fun p => p.2.map fun row => clusterNodeOfRow row.2

/-- Modelled from the spec (4.4): `load_edges()` — scan every
edge-role file (fail-fast), emit one edge per valid row plus the
deduplicated endpoint stubs. -/
def load_edges (m : Manifest) (fsys : String → List String) :
    Except String EdgeLoad :=
  match loadRows m Role.edges fsys with
  | .error e => .error e
  | .ok perFile =>
    .ok { nodes := stubNodes (edgesOfPerFile perFile),
          edges := edgesOfPerFile perFile }

/-- Modelled from the spec (4.5): `load_node_metadata()` — one node per
valid row of every node-metadata file, duplicates passed through. -/
def load_node_metadata (m : Manifest) (fsys : String → List String) :
    Except String NodeLoad :=
  match loadRows m Role.nodeMetadata fsys with
  | .error e => .error e
  | .ok perFile => .ok { nodes := nodesOfPerFile perFile }

/-- Modelled from the spec (4.6): `load_cluster_data()` — one
cluster-annotated node per valid row of every cluster file. -/
def load_cluster_data (m : Manifest) (fsys : String → List String) :
    Except String NodeLoad :=
  match loadRows m Role.cluster fsys with
  | .error e => .error e
  | .ok perFile => .ok { nodes := clusterNodesOfPerFile perFile }

/-! ### Manifest loading (spec 4.1) -/

/-- Modelled from the spec: what the filesystem holds at a path. -/
inductive PathStatus where
  | file
  | directory
  | missing
deriving DecidableEq

/-- Modelled from the spec: the manifest document as found on disk —
absent, present but failing its schema, or schema-valid. -/
inductive ManifestSource where
  | absent
  | invalid
  | valid (m : Manifest)

/-- Modelled from the spec (4.1): eagerly check every descriptor's
referenced path, in order: a directory is `<path>: not a file`, an
absent path is `<path>: file does not exist`. -/
def checkPaths (root : String) (stat : String → PathStatus) :
    List FileDesc → Except String Unit
  | [] => .ok ()
  | d :: rest =>
    let p := root ++ "/" ++ d.path
    match stat p with
    | PathStatus.directory => .error (p ++ ": not a file")
    | PathStatus.missing => .error (p ++ ": file does not exist")
    | PathStatus.file => checkPaths root stat rest

/-- Modelled from the spec (4.1): `configure(root_data_path)` — locate
`manifest.yaml` under the root, validate it against the manifest
schema, then eagerly check every referenced path; all failures are
`ConfigurationError`s raised before any load is attempted. -/
def configure (root : String) (src : ManifestSource)
    (stat : String → PathStatus) : Except String Manifest :=
  match src with
  | ManifestSource.absent =>
      .error ("No manifest file found at " ++ root ++ "/manifest.yaml")
  | ManifestSource.invalid => .error "The manifest file failed validation"
  | ManifestSource.valid m =>
    match checkPaths root stat m.files with
    | .error e => .error e
    | .ok _ => .ok m

/-! Cross-checks of the BLAKE2b embedding against `hashlib.blake2b`
reference digests (digest_size=8, empty / short / block-boundary /
multi-block inputs). -/

set_option maxRecDepth 100000

example : blake2bHex8 (strBytes "") = "e4a6a0577479b2b4" := by rfl
example : blake2bHex8 (strBytes "ab") = "0e52b5f187de1088" := by rfl
example : blake2bHex8 (strBytes "ba") = "ee3f6b40991a6c7a" := by rfl
example : blake2bHex8 (strBytes "abc") = "d8bb14d833d59559" := by rfl
example : blake2bHex8 (List.replicate 128 97) = "f06643fe9c7e18da" := by rfl
example : blake2bHex8 (List.replicate 129 97) = "e462535bb0c5a299" := by rfl
example : blake2bHex8 (List.replicate 300 97) = "8b397aa4c75429a2" := by rfl
example : blake2bHex8 (strBytes "node/1node/2") = "a8268bc0f72da90a" := by rfl

/-! ## Helper lemmas -/

/-- Setting a key then reading it back yields the written value. -/
lemma jGet_jSet_self (d : Doc) (k : String) (v : JVal) :
    jGet (jSet d k v) k = some v := by
  induction d with
  | nil => simp [jSet, jGet]
  | cons p rest ih =>
    obtain ⟨k', v'⟩ := p
    simp only [jSet]
    split
    next h => simp [jGet]
    next h => simp [jGet, h, ih]

/-- The BLAKE2b compression function returns an 8-word state. -/
lemma length_blakeCompress (h m : List Nat) (t : Nat) (last : Bool) :
    (blakeCompress h m t last).length = 8 := by
  simp [blakeCompress]

/-- Compressing any block sequence preserves the 8-word state shape. -/
lemma length_compressBlocks :
    ∀ (blocks : List (List Nat)) (h : List Nat) (done total : Nat),
      h.length = 8 → (compressBlocks h blocks done total).length = 8
  | [], _, _, _, hh => hh
  | [_], _, _, _, _ => length_blakeCompress _ _ _ _
  | _ :: _ :: rest, _, done, total, _ =>
      length_compressBlocks (_ :: rest) _ (done + 128) total
        (length_blakeCompress _ _ _ _)

/-- Serialising `ws` words little-endian yields `8 * ws.length` bytes. -/
lemma length_flatWordBytes :
    ∀ ws : List Nat, ((ws.map wordBytes).foldr (· ++ ·) []).length = 8 * ws.length := by
  intro ws
  induction ws with
  | nil => simp
  | cons w rest ih => simp [wordBytes, ih]; ring

/-- The BLAKE2b digest has exactly the requested length (≤ 64 bytes). -/
lemma length_blake2b (nn : Nat) (msg : List Nat) (h : nn ≤ 64) :
    (blake2b nn msg).length = nn := by
  unfold blake2b
  rw [List.length_take, length_flatWordBytes,
    length_compressBlocks _ _ _ _ (by simp [blakeIV])]
  omega

/-- Core behaviour of `_write_edge_key` on an edge-shaped document with
string endpoints and no explicit key. -/
lemma writeEdgeKey_eq (d : Doc) (f t : String)
    (hk : jHas d "_key" = false)
    (hf : jGet d "_from" = some (JVal.str f))
    (ht : jGet d "_to" = some (JVal.str t)) :
    _write_edge_key d =
      .ok (jSet d "_key" (JVal.str (blake2bHex8 (strBytes f ++ strBytes t)))) := by
  have hhf : jHas d "_from" = true := by simp [jHas, hf]
  have hht : jHas d "_to" = true := by simp [jHas, ht]
  simp [_write_edge_key, hk, hhf, hht, hf, ht]

/-- A document produced by a successful `processLine` carries the
millisecond timestamp of the clock reading used for that line. -/
lemma processLine_updated (now : ℚ) (li : LineInput) (d : Doc)
    (h : processLine now li = .ok d) :
    jGet d "updated_at" = some (JVal.int (pyInt (now * 1000))) := by
  cases li with
  | badJson => simp [processLine] at h
  | badSchema d0 => simp [processLine] at h
  | good d0 =>
    simp only [processLine] at h
    cases hw : _write_edge_key d0 with
    | error e => rw [hw] at h; simp at h
    | ok d' =>
      rw [hw] at h
      simp only [Except.ok.injEq] at h
      rw [← h]
      exact jGet_jSet_self d' "updated_at" _

/-- Every document in the temp-file content written by the streaming
loop is stamped with the millisecond clock reading of its own line. -/
lemma streamToTemp_getD (clock : Nat → ℚ) :
    ∀ (lines : List LineInput) (j i : Nat),
      i < ((streamToTemp clock j lines).1).length →
      jGet (((streamToTemp clock j lines).1).getD i []) "updated_at" =
        some (JVal.int (pyInt (clock (j + i) * 1000))) := by
  intro lines
  induction lines with
  | nil => intro j i h; simp [streamToTemp] at h
  | cons li rest ih =>
    intro j i h
    cases hp : processLine (clock j) li with
    | error e =>
      have h0 : (streamToTemp clock j (li :: rest)).1 = [] := by
        simp [streamToTemp, hp]
      rw [h0] at h
      simp at h
    | ok d =>
      have h1 : (streamToTemp clock j (li :: rest)).1 =
          d :: (streamToTemp clock (j + 1) rest).1 := by
        simp [streamToTemp, hp]
      rw [h1] at h ⊢
      cases i with
      | zero => simpa using processLine_updated (clock j) li d hp
      | succ i' =>
        have harith : j + (i' + 1) = (j + 1) + i' := by omega
        rw [List.getD_cons_succ, harith]
        exact ih (j + 1) i' (by simpa using h)

/-! ## Claims about `bulk_import` / `_write_edge_key` -/

/-- C1: for every JSON document with `_from` and `_to` fields (string
endpoints) and no `_key` field, `_write_edge_key` returns the document
with `_key` set to the hex encoding of the fixed-size 8-byte BLAKE2b
digest of the concatenation of `_from` and `_to`, and the assigned key
depends only on that ordered pair of endpoint values. -/
theorem claim_C1 (d : Doc) (f t : String)
    (hk : jHas d "_key" = false)
    (hf : jGet d "_from" = some (JVal.str f))
    (ht : jGet d "_to" = some (JVal.str t)) :
    _write_edge_key d =
      .ok (jSet d "_key" (JVal.str (bytesHex (blake2b 8 (strBytes f ++ strBytes t))))) ∧
    (blake2b 8 (strBytes f ++ strBytes t)).length = 8 ∧
    (∀ (d' r r' : Doc),
      jHas d' "_key" = false → jGet d' "_from" = some (JVal.str f) →
      jGet d' "_to" = some (JVal.str t) →
      _write_edge_key d = .ok r → _write_edge_key d' = .ok r' →
      jGet r "_key" = jGet r' "_key") := by
  refine ⟨writeEdgeKey_eq d f t hk hf ht, length_blake2b 8 _ (by omega), ?_⟩
  intro d' r r' hk' hf' ht' hr hr'
  rw [writeEdgeKey_eq d f t hk hf ht] at hr
  rw [writeEdgeKey_eq d' f t hk' hf' ht'] at hr'
  simp only [Except.ok.injEq] at hr hr'
  rw [← hr, ← hr', jGet_jSet_self, jGet_jSet_self]

/-- Witness for C1 at a concrete edge document. -/
theorem claim_C1_witness :
    jHas [("_from", JVal.str "a"), ("_to", JVal.str "b")] "_key" = false ∧
    _write_edge_key [("_from", JVal.str "a"), ("_to", JVal.str "b")] =
      .ok (jSet [("_from", JVal.str "a"), ("_to", JVal.str "b")] "_key"
        (JVal.str (bytesHex (blake2b 8 (strBytes "a" ++ strBytes "b"))))) :=
  ⟨rfl, (claim_C1 [("_from", JVal.str "a"), ("_to", JVal.str "b")] "a" "b"
    rfl rfl rfl).1⟩

/-- C2: every execution of `bulk_import` — normal return, JSON parse
error, schema validation failure, or bulk-loader failure — ends with
the temporary file removed. -/
theorem claim_C2 (clock : Nat → ℚ) (lines : List LineInput)
    (db : List Doc → Except String String) :
    (bulk_import clock lines db).2.tempExists = false := rfl

/-- C8: every document written to the temporary file by `bulk_import`
(i.e. every document accepted by the per-line schema validation) carries
`updated_at` equal to the current time multiplied by 1000 and truncated
to an integer, the clock being read while that line is processed. -/
theorem claim_C8 (clock : Nat → ℚ) (lines : List LineInput)
    (db : List Doc → Except String String) (i : Nat)
    (h : i < (bulk_import clock lines db).2.content.length) :
    jGet ((bulk_import clock lines db).2.content.getD i []) "updated_at" =
      some (JVal.int (pyInt (clock i * 1000))) := by
  have hc : (bulk_import clock lines db).2.content = (streamToTemp clock 0 lines).1 := rfl
  rw [hc] at h ⊢
  simpa using streamToTemp_getD clock lines 0 i h

/-- Witness for C8: one schema-valid line, stamped at clock reading 0. -/
theorem claim_C8_witness :
    0 < (bulk_import (fun _ => (0 : ℚ)) [LineInput.good []]
          (fun _ => .ok "")).2.content.length ∧
    jGet ((bulk_import (fun _ => (0 : ℚ)) [LineInput.good []]
          (fun _ => .ok "")).2.content.getD 0 []) "updated_at" =
      some (JVal.int (pyInt ((fun _ => (0 : ℚ)) 0 * 1000))) :=
  ⟨by decide, claim_C8 (fun _ => (0 : ℚ)) [LineInput.good []]
    (fun _ => .ok "") 0 (by decide)⟩

/-- C9: edge key derivation is a pure function of the ordered pair of
endpoint identifiers — equal `(_from, _to)` pairs (in the same or
independent runs) receive equal keys, the key is the digest of the
concatenation, and the key depends on the order of the endpoints. -/
theorem claim_C9 :
    (∀ (d r : Doc) (f t : String),
      jHas d "_key" = false → jGet d "_from" = some (JVal.str f) →
      jGet d "_to" = some (JVal.str t) → _write_edge_key d = .ok r →
      jGet r "_key" = some (JVal.str (blake2bHex8 (strBytes f ++ strBytes t)))) ∧
    (∀ (d d' r r' : Doc) (f t : String),
      jHas d "_key" = false → jGet d "_from" = some (JVal.str f) →
      jGet d "_to" = some (JVal.str t) →
      jHas d' "_key" = false → jGet d' "_from" = some (JVal.str f) →
      jGet d' "_to" = some (JVal.str t) →
      _write_edge_key d = .ok r → _write_edge_key d' = .ok r' →
      jGet r "_key" = jGet r' "_key") ∧
    blake2bHex8 (strBytes "a" ++ strBytes "b") ≠
      blake2bHex8 (strBytes "b" ++ strBytes "a") := by
  have base : ∀ (d r : Doc) (f t : String),
      jHas d "_key" = false → jGet d "_from" = some (JVal.str f) →
      jGet d "_to" = some (JVal.str t) → _write_edge_key d = .ok r →
      jGet r "_key" = some (JVal.str (blake2bHex8 (strBytes f ++ strBytes t))) := by
    intro d r f t hk hf ht hr
    rw [writeEdgeKey_eq d f t hk hf ht] at hr
    simp only [Except.ok.injEq] at hr
    rw [← hr]
    exact jGet_jSet_self d "_key" _
  refine ⟨base, ?_, ?_⟩
  · intro d d' r r' f t hk hf ht hk' hf' ht' hr hr'
    rw [base d r f t hk hf ht hr, base d' r' f t hk' hf' ht' hr']
  · intro hcontra
    have h1 : blake2bHex8 (strBytes "a" ++ strBytes "b") = "0e52b5f187de1088" := by rfl
    have h2 : blake2bHex8 (strBytes "b" ++ strBytes "a") = "ee3f6b40991a6c7a" := by rfl
    rw [h1, h2] at hcontra
    exact absurd hcontra (by decide)

/-- Witness for C9: the first conjunct applied to a concrete document. -/
theorem claim_C9_witness :
    jGet (jSet [("_from", JVal.str "a"), ("_to", JVal.str "b")] "_key"
        (JVal.str (blake2bHex8 (strBytes "a" ++ strBytes "b")))) "_key" =
      some (JVal.str (blake2bHex8 (strBytes "a" ++ strBytes "b"))) :=
  claim_C9.1 [("_from", JVal.str "a"), ("_to", JVal.str "b")] _ "a" "b"
    rfl rfl rfl rfl

/-- C10: a document that already has a `_key`, or is missing `_from` or
`_to`, passes through `_write_edge_key` unchanged. -/
theorem claim_C10 (d : Doc)
    (h : jHas d "_key" = true ∨ jHas d "_from" = false ∨ jHas d "_to" = false) :
    _write_edge_key d = .ok d := by
  unfold _write_edge_key
  rcases h with h | h | h <;> simp [h]

/-- Witness for C10 at a concrete keyed document. -/
theorem claim_C10_witness :
    _write_edge_key [("_key", JVal.str "k")] = .ok [("_key", JVal.str "k")] :=
  claim_C10 [("_key", JVal.str "k")] (Or.inl rfl)

/-! ## The simple data-sources importer (`load_data`) -/

/-- When every schema-valid document has an `ns` field, the validation
loop examines every document, accumulates every violation, and flags an
error exactly when some document is invalid. -/
lemma dsProcess_ok (errs : Doc → List String) :
    ∀ docs : List Doc,
      (∀ d ∈ docs, (errs d).isEmpty = true → jHas d "ns" = true) →
      ∃ toSave, dsProcess errs docs =
        .ok (docs.any (fun d => !(errs d).isEmpty), toSave, docs, docs.flatMap errs) := by
  intro docs
  induction docs with
  | nil => exact fun _ => ⟨[], rfl⟩
  | cons d rest ih =>
    intro hns
    obtain ⟨ts, hts⟩ := ih (fun d' hd' => hns d' (List.mem_cons_of_mem d hd'))
    by_cases he : (errs d).isEmpty = true
    · have hnse : jHas d "ns" = true := hns d (List.mem_cons_self d rest) he
      obtain ⟨v, hv⟩ := Option.isSome_iff_exists.mp hnse
      refine ⟨jSet d "_key" v :: ts, ?_⟩
      simp [dsProcess, he, hv, hts, List.isEmpty_iff.mp he]
    · refine ⟨ts, ?_⟩
      simp [dsProcess, he, hts]

/-- C3: when at least one input document fails schema validation,
`load_data` still validates every document (accumulating an error
report per violation), returns `False`, and never calls `save_docs`,
for both values of `dry_run`. -/
theorem claim_C3 (docs : List Doc) (errs : Doc → List String) (dry_run : Bool)
    (hns : ∀ d ∈ docs, (errs d).isEmpty = true → jHas d "ns" = true)
    (hbad : ∃ d ∈ docs, errs d ≠ []) :
    (load_data docs errs dry_run).result = .ok false ∧
    (load_data docs errs dry_run).saved = none ∧
    (load_data docs errs dry_run).validated = docs ∧
    (load_data docs errs dry_run).errorNotes = docs.flatMap errs := by
  obtain ⟨ts, hts⟩ := dsProcess_ok errs docs hns
  have hany : docs.any (fun d => !(errs d).isEmpty) = true := by
    obtain ⟨d, hd, hne⟩ := hbad
    exact List.any_eq_true.mpr ⟨d, hd, by simpa [List.isEmpty_iff] using hne⟩
  rw [hany] at hts
  simp [load_data, hts]

/-- Witness for C3: a single invalid document. -/
theorem claim_C3_witness :
    (load_data [[]] (fun _ => ["e1"]) false).result = .ok false ∧
    (load_data [[]] (fun _ => ["e1"]) false).saved = none ∧
    (load_data [[]] (fun _ => ["e1"]) false).validated = [[]] ∧
    (load_data [[]] (fun _ => ["e1"]) false).errorNotes =
      ([[]] : List Doc).flatMap (fun _ => ["e1"]) :=
  claim_C3 [[]] (fun _ => ["e1"]) false
    (by intro d _ h; simp at h)
    ⟨[], by simp, by simp⟩

/-! ## The manifest-driven parser: lemmas -/

/-- A file whose descriptors are all backed by files of at most one
line (header only) scans to the empty row sequence for every
descriptor. -/
lemma scanAll_empty (fsys : String → List String) :
    ∀ ds : List FileDesc, (∀ d ∈ ds, (fsys d.path).length ≤ 1) →
      scanAll fsys ds = .ok (ds.map fun d => (d, [])) := by
  intro ds
  induction ds with
  | nil => exact fun _ => rfl
  | cons d rest ih =>
    intro h
    have hd : (fsys d.path).drop 1 = [] :=
      List.drop_eq_nil_of_le (h d (List.mem_cons_self d rest))
    simp [scanAll, scanFile, hd, scanRows,
      ih (fun d' hd' => h d' (List.mem_cons_of_mem d hd'))]

/-- Descriptors with no data rows produce no edges. -/
lemma edgesOfPerFile_nil (ds : List FileDesc) :
    edgesOfPerFile (ds.map fun d => (d, [])) = [] := by
  induction ds with
  | nil => rfl
  | cons d rest ih => simp [edgesOfPerFile, ih]

/-- Descriptors with no data rows produce no metadata nodes. -/
lemma nodesOfPerFile_nil (ds : List FileDesc) :
    nodesOfPerFile (ds.map fun d => (d, [])) = [] := by
  induction ds with
  | nil => rfl
  | cons d rest ih => simp [nodesOfPerFile, ih]

/-- Descriptors with no data rows produce no cluster nodes. -/
lemma clusterNodesOfPerFile_nil (ds : List FileDesc) :
    clusterNodesOfPerFile (ds.map fun d => (d, [])) = [] := by
  induction ds with
  | nil => rfl
  | cons d rest ih => simp [clusterNodesOfPerFile, ih]

/-- A scan that fails on one file fails identically when that file is
preceded by cleanly-scanning files: the violation is reported and no
later descriptor matters. -/
lemma scanAll_err (fsys : String → List String) :
    ∀ (pre : List FileDesc) (d : FileDesc) (post : List FileDesc) (e : String),
      (∀ d' ∈ pre, ∃ rows, scanFile d' (fsys d'.path) = .ok rows) →
      scanFile d (fsys d.path) = .error e →
      scanAll fsys (pre ++ d :: post) = .error e := by
  intro pre
  induction pre with
  | nil => intro d post e _ hbad; simp [scanAll, hbad]
  | cons p ps ih =>
    intro d post e hpre hbad
    obtain ⟨rows, hrows⟩ := hpre p (List.mem_cons_self p ps)
    simp [scanAll, hrows,
      ih d post e (fun d' hd' => hpre d' (List.mem_cons_of_mem p hd')) hbad]

/-- The row scan is fail-fast: rows before the first violation pass,
the violating row's error is returned, and the lines after it do not
influence the result. -/
lemma scanRows_err (d : FileDesc) :
    ∀ (goodLines : List String) (k : Nat) (badLine : String)
      (rest : List String) (e : String),
      (∀ i, i < goodLines.length →
        ∃ row, checkRow d (k + i) (goodLines.getD i "") = .ok row) →
      checkRow d (k + goodLines.length) badLine = .error e →
      scanRows d k (goodLines ++ badLine :: rest) = .error e := by
  intro goodLines
  induction goodLines with
  | nil =>
    intro k badLine rest e _ hbad
    simp only [List.length_nil, Nat.add_zero] at hbad
    simp [scanRows, hbad]
  | cons g gs ih =>
    intro k badLine rest e hgood hbad
    obtain ⟨row, hrow⟩ := hgood 0 (by simp)
    have hd0 : checkRow d k g = .ok row := by simpa using hrow
    have hgood' : ∀ i, i < gs.length →
        ∃ rw, checkRow d ((k + 1) + i) (gs.getD i "") = .ok rw := by
      intro i hi
      have h1 := hgood (i + 1) (by simpa using Nat.succ_lt_succ hi)
      have heq : k + (i + 1) = (k + 1) + i := by omega
      rw [heq, List.getD_cons_succ] at h1
      exact h1
    have hbad' : checkRow d ((k + 1) + gs.length) badLine = .error e := by
      have heq : k + (g :: gs).length = (k + 1) + gs.length := by
        simp only [List.length_cons]; omega
      rw [heq] at hbad
      exact hbad
    simp [scanRows, hd0, ih (k + 1) badLine rest e hgood' hbad']

/-- The list of descriptors a load call scans contains only descriptors
of the call's role. -/
lemma role_of_mem_descsOf (m : Manifest) (r : Role) (d : FileDesc)
    (h : d ∈ descsOf m r) : d.role = r := by
  have := (List.mem_filter.mp h).2
  simpa using this

/-- Checking the referenced paths of a descriptor list fails exactly as
its first offender does, whatever follows it. -/
lemma checkPaths_append_err (root : String) (stat : String → PathStatus) :
    ∀ (pre : List FileDesc) (d : FileDesc) (rest : List FileDesc) (e : String),
      (∀ d' ∈ pre, stat (root ++ "/" ++ d'.path) = PathStatus.file) →
      checkPaths root stat (d :: rest) = .error e →
      checkPaths root stat (pre ++ d :: rest) = .error e := by
  intro pre
  induction pre with
  | nil => intro d rest e _ h; exact h
  | cons p ps ih =>
    intro d rest e hpre h
    have hp : stat (root ++ "/" ++ p.path) = PathStatus.file :=
      hpre p (List.mem_cons_self p ps)
    simp only [List.cons_append, checkPaths, hp]
    exact ih d rest e (fun d' hd' => hpre d' (List.mem_cons_of_mem p hd')) h

/-! ## Claims about the manifest-driven parser (modelled from the spec) -/

/-- C6: manifest loading fails eagerly with the four
`ConfigurationError` messages — missing manifest, schema-invalid
manifest, descriptor path that is a directory, descriptor path that
does not exist (the first offending descriptor, in order, reports). -/
theorem claim_C6 :
    (∀ (root : String) (stat : String → PathStatus),
      configure root ManifestSource.absent stat =
        .error ("No manifest file found at " ++ root ++ "/manifest.yaml")) ∧
    (∀ (root : String) (stat : String → PathStatus),
      configure root ManifestSource.invalid stat =
        .error "The manifest file failed validation") ∧
    (∀ (root : String) (stat : String → PathStatus) (m : Manifest)
       (pre : List FileDesc) (d : FileDesc) (rest : List FileDesc),
      m.files = pre ++ d :: rest →
      (∀ d' ∈ pre, stat (root ++ "/" ++ d'.path) = PathStatus.file) →
      stat (root ++ "/" ++ d.path) = PathStatus.directory →
      configure root (ManifestSource.valid m) stat =
        .error (root ++ "/" ++ d.path ++ ": not a file")) ∧
    (∀ (root : String) (stat : String → PathStatus) (m : Manifest)
       (pre : List FileDesc) (d : FileDesc) (rest : List FileDesc),
      m.files = pre ++ d :: rest →
      (∀ d' ∈ pre, stat (root ++ "/" ++ d'.path) = PathStatus.file) →
      stat (root ++ "/" ++ d.path) = PathStatus.missing →
      configure root (ManifestSource.valid m) stat =
        .error (root ++ "/" ++ d.path ++ ": file does not exist")) := by
  refine ⟨fun _ _ => rfl, fun _ _ => rfl, ?_, ?_⟩
  · intro root stat m pre d rest hfiles hpre hd
    have hchk : checkPaths root stat (pre ++ d :: rest) =
        .error (root ++ "/" ++ d.path ++ ": not a file") :=
      checkPaths_append_err root stat pre d rest _ hpre
        (by simp [checkPaths, hd])
    simp [configure, hfiles, hchk]
  · intro root stat m pre d rest hfiles hpre hd
    have hchk : checkPaths root stat (pre ++ d :: rest) =
        .error (root ++ "/" ++ d.path ++ ": file does not exist") :=
      checkPaths_append_err root stat pre d rest _ hpre
        (by simp [checkPaths, hd])
    simp [configure, hfiles, hchk]

/-- Witness for C6: a one-descriptor manifest whose referenced path is
a directory. -/
theorem claim_C6_witness :
    configure "r" (ManifestSource.valid ⟨[⟨"edges.tsv", Role.edges, 5, none, []⟩]⟩)
      (fun _ => PathStatus.directory) =
      .error ("r" ++ "/" ++ "edges.tsv" ++ ": not a file") :=
  claim_C6.2.2.1 "r" (fun _ => PathStatus.directory)
    ⟨[⟨"edges.tsv", Role.edges, 5, none, []⟩]⟩
    [] ⟨"edges.tsv", Role.edges, 5, none, []⟩ [] rfl (by simp) rfl

/-- C7: for a valid manifest all of whose referenced files have zero
data rows, `load_edges` returns exactly the empty nodes/edges shape,
and `load_node_metadata` / `load_cluster_data` the empty nodes shape —
no `None`, no exception. -/
theorem claim_C7 (m : Manifest) (fsys : String → List String)
    (h : ∀ d ∈ m.files, (fsys d.path).length ≤ 1) :
    load_edges m fsys = .ok { nodes := [], edges := [] } ∧
    load_node_metadata m fsys = .ok { nodes := [] } ∧
    load_cluster_data m fsys = .ok { nodes := [] } := by
  have hscan : ∀ r : Role, loadRows m r fsys =
      .ok ((descsOf m r).map fun d => (d, [])) := by
    intro r
    exact scanAll_empty fsys (descsOf m r)
      (fun d hd => h d (List.mem_filter.mp hd).1)
  refine ⟨?_, ?_, ?_⟩
  · simp [load_edges, hscan Role.edges, edgesOfPerFile_nil, stubNodes]
  · simp [load_node_metadata, hscan Role.nodeMetadata, nodesOfPerFile_nil]
  · simp [load_cluster_data, hscan Role.cluster, clusterNodesOfPerFile_nil]

/-- Witness for C7: the empty manifest over an empty filesystem. -/
theorem claim_C7_witness :
    load_edges ⟨[]⟩ (fun _ => []) = .ok { nodes := [], edges := [] } ∧
    load_node_metadata ⟨[]⟩ (fun _ => []) = .ok { nodes := [] } ∧
    load_cluster_data ⟨[]⟩ (fun _ => []) = .ok { nodes := [] } :=
  claim_C7 ⟨[]⟩ (fun _ => []) (by simp)

/-- C4: a data row whose column count differs from the descriptor's
expected count makes the load call fail with
`<filename> line <n>: expected <e> cols, found <f>` (n 1-indexed,
counting the header), and the scan is fail-fast — the conclusion holds
for every content of the lines after line n (`rest`) and of the files
after the offending one, and the call returns the error, not a partial
result. -/
theorem claim_C4 (m : Manifest) (r : Role) (fsys : String → List String)
    (pre : List FileDesc) (d : FileDesc) (post : List FileDesc)
    (hdr : String) (goodLines : List String) (badLine : String)
    (rest : List String)
    (hsplit : descsOf m r = pre ++ d :: post)
    (hpre : ∀ d' ∈ pre, ∃ rows, scanFile d' (fsys d'.path) = .ok rows)
    (hfile : fsys d.path = hdr :: (goodLines ++ badLine :: rest))
    (hgood : ∀ i, i < goodLines.length →
      ∃ row, checkRow d (2 + i) (goodLines.getD i "") = .ok row)
    (hbad : (splitCols (delimFor d.role) badLine).length ≠ d.expectedCols) :
    loadRows m r fsys = .error (colCountMsg d (2 + goodLines.length)
      (splitCols (delimFor d.role) badLine).length) ∧
    (r = Role.edges → load_edges m fsys = .error (colCountMsg d
      (2 + goodLines.length) (splitCols (delimFor d.role) badLine).length)) ∧
    (r = Role.nodeMetadata → load_node_metadata m fsys = .error (colCountMsg d
      (2 + goodLines.length) (splitCols (delimFor d.role) badLine).length)) ∧
    (r = Role.cluster → load_cluster_data m fsys = .error (colCountMsg d
      (2 + goodLines.length) (splitCols (delimFor d.role) badLine).length)) ∧
    (∀ (fsys' : String → List String) (rest' : List String),
      (∀ d' ∈ pre, fsys' d'.path = fsys d'.path) →
      fsys' d.path = hdr :: (goodLines ++ badLine :: rest') →
      loadRows m r fsys' = .error (colCountMsg d (2 + goodLines.length)
        (splitCols (delimFor d.role) badLine).length)) := by
  have hck : checkRow d (2 + goodLines.length) badLine =
      .error (colCountMsg d (2 + goodLines.length)
        (splitCols (delimFor d.role) badLine).length) := by
    simp [checkRow, hbad]
  have hcore : ∀ (fsys' : String → List String) (rest' : List String),
      (∀ d' ∈ pre, ∃ rows, scanFile d' (fsys' d'.path) = .ok rows) →
      fsys' d.path = hdr :: (goodLines ++ badLine :: rest') →
      loadRows m r fsys' = .error (colCountMsg d (2 + goodLines.length)
        (splitCols (delimFor d.role) badLine).length) := by
    intro fsys' rest' hpre' hfile'
    have hsf : scanFile d (fsys' d.path) =
        .error (colCountMsg d (2 + goodLines.length)
          (splitCols (delimFor d.role) badLine).length) := by
      rw [scanFile, hfile']
      simpa using scanRows_err d goodLines 2 badLine rest' _ hgood hck
    rw [loadRows, hsplit]
    exact scanAll_err fsys' pre d post _ hpre' hsf
  have hload := hcore fsys rest hpre hfile
  refine ⟨hload, ?_, ?_, ?_, ?_⟩
  · intro hr; subst hr; simp [load_edges, hload]
  · intro hr; subst hr; simp [load_node_metadata, hload]
  · intro hr; subst hr; simp [load_cluster_data, hload]
  · intro fsys' rest' hagree hfile'
    exact hcore fsys' rest'
      (fun d' hd' => by rw [hagree d' hd']; exact hpre d' hd') hfile'

/-- Witness for C4: a one-file manifest whose single data row has 2
columns where 5 are expected. -/
theorem claim_C4_witness :
    loadRows ⟨[⟨"edges.tsv", Role.edges, 5, none, []⟩]⟩ Role.edges
      (fun _ => ["h", "a\tb"]) =
      .error (colCountMsg ⟨"edges.tsv", Role.edges, 5, none, []⟩ 2
        ((splitCols (delimFor Role.edges) "a\tb").length)) :=
  (claim_C4 ⟨[⟨"edges.tsv", Role.edges, 5, none, []⟩]⟩ Role.edges
    (fun _ => ["h", "a\tb"]) [] ⟨"edges.tsv", Role.edges, 5, none, []⟩ []
    "h" [] "a\tb" [] rfl (by simp) rfl
    (by intro i hi; simp at hi) (by decide)).1

/-- C5: an edge-file row whose type-column value is outside the edge
vocabulary makes `load_edges` fail with
`<filename> line <n>: invalid edge type: <value>`, and a node-metadata
row with a type outside the node vocabulary makes `load_node_metadata`
fail with `<filename> line <n>: invalid node type: <value>` (n
1-indexed, counting the header row). -/
theorem claim_C5 (m : Manifest) (r : Role) (fsys : String → List String)
    (pre : List FileDesc) (d : FileDesc) (post : List FileDesc)
    (hdr : String) (goodLines : List String) (badLine : String)
    (rest : List String) (tc : Nat) (v : String)
    (hsplit : descsOf m r = pre ++ d :: post)
    (hpre : ∀ d' ∈ pre, ∃ rows, scanFile d' (fsys d'.path) = .ok rows)
    (hfile : fsys d.path = hdr :: (goodLines ++ badLine :: rest))
    (hgood : ∀ i, i < goodLines.length →
      ∃ row, checkRow d (2 + i) (goodLines.getD i "") = .ok row)
    (hcols : (splitCols (delimFor d.role) badLine).length = d.expectedCols)
    (htc : d.typeCol = some tc)
    (hv : (splitCols (delimFor d.role) badLine).getD tc "" = v)
    (hvoc : d.vocab.contains v = false) :
    loadRows m r fsys = .error (badTypeMsg d (2 + goodLines.length) v) ∧
    (r = Role.edges → load_edges m fsys = .error (d.path ++ " line " ++
      toString (2 + goodLines.length) ++ ": invalid " ++ "edge" ++
      " type: " ++ v)) ∧
    (r = Role.nodeMetadata → load_node_metadata m fsys = .error (d.path ++
      " line " ++ toString (2 + goodLines.length) ++ ": invalid " ++
      "node" ++ " type: " ++ v)) := by
  have hrole : d.role = r := by
    apply role_of_mem_descsOf m r d
    rw [hsplit]
    exact List.mem_append_right pre (List.mem_cons_self d post)
  have hck : checkRow d (2 + goodLines.length) badLine =
      .error (badTypeMsg d (2 + goodLines.length) v) := by
    have hv' : (splitCols (delimFor d.role) badLine)[tc]?.getD "" = v := by
      simpa using hv
    have hnmem : ¬v ∈ d.vocab := by simpa using hvoc
    simp [checkRow, hcols, htc, hv', hnmem]
  have hsf : scanFile d (fsys d.path) =
      .error (badTypeMsg d (2 + goodLines.length) v) := by
    rw [scanFile, hfile]
    simpa using scanRows_err d goodLines 2 badLine rest _ hgood hck
  have hload : loadRows m r fsys =
      .error (badTypeMsg d (2 + goodLines.length) v) := by
    rw [loadRows, hsplit]
    exact scanAll_err fsys pre d post _ hpre hsf
  refine ⟨hload, ?_, ?_⟩
  · intro hr
    have hmsg : badTypeMsg d (2 + goodLines.length) v = d.path ++ " line " ++
        toString (2 + goodLines.length) ++ ": invalid " ++ "edge" ++
        " type: " ++ v := by
      rw [badTypeMsg, hrole, hr]; rfl
    rw [← hmsg]
    subst hr
    simp [load_edges, hload]
  · intro hr
    have hmsg : badTypeMsg d (2 + goodLines.length) v = d.path ++ " line " ++
        toString (2 + goodLines.length) ++ ": invalid " ++ "node" ++
        " type: " ++ v := by
      rw [badTypeMsg, hrole, hr]; rfl
    rw [← hmsg]
    subst hr
    simp [load_node_metadata, hload]

/-- Witness for C5: a one-file edge manifest whose single data row has
a type value outside the vocabulary. -/
theorem claim_C5_witness :
    loadRows ⟨[⟨"edges.tsv", Role.edges, 2, some 1, ["regulatory"]⟩]⟩
      Role.edges (fun _ => ["h", "a\tbogus"]) =
      .error (badTypeMsg ⟨"edges.tsv", Role.edges, 2, some 1, ["regulatory"]⟩
        2 "bogus") :=
  (claim_C5 ⟨[⟨"edges.tsv", Role.edges, 2, some 1, ["regulatory"]⟩]⟩
    Role.edges (fun _ => ["h", "a\tbogus"]) []
    ⟨"edges.tsv", Role.edges, 2, some 1, ["regulatory"]⟩ []
    "h" [] "a\tbogus" [] 1 "bogus" rfl (by simp) rfl
    (by intro i hi; simp at hi) (by decide) rfl (by decide) (by decide)).1
